import Mathlib

/-!
Shallow embedding of the core of the gamblebot repository
(odds.py, staking.py, model.py, features.py, filters.py, evaluation.py)
together with theorems checking its natural-language specification.

Modelling conventions, used throughout:

* python floats are modelled as exact rationals (`ℚ`); a possibly-NaN
  float value is modelled as `Option ℚ` with `none` standing for NaN or a
  non-finite value; `pd.to_numeric(s, errors := coerce).fillna(c)` becomes
  `Option.getD · c`;
* pandas tables with a fixed schema are lists of row records; the
  dynamically-columned frames of features.py and filters.py are modelled
  by a column-name list plus rows mapping column names to cells;
* numpy division by zero produces inf or NaN; wherever the code later
  replaces those by 0 (staking.py line 91) the definition carries an
  explicit zero-denominator branch, and wherever the code lets them
  propagate (model.py line 41) the result is `Option ℚ` with `none` for
  the non-finite value;
* network and file I/O (the odds API client, `data.load_weekly_player_stats`,
  `data.load_pbp`, `nfl_data_py` injury reports, the CSV prediction log)
  is out of scope; the tables those calls produce are passed to the
  embedded functions as explicit inputs.
-/

namespace Gamblebot

/-- `np.clip(x, lo, hi)` / `Series.clip(lo, hi)` for `lo ≤ hi`, written
with `if` so that concrete instances reduce by `decide`. -/
def clipQ (lo hi x : ℚ) : ℚ := if hi ≤ x then hi else if x ≤ lo then lo else x

/-- `Series.clip(lower := lo)`, that is `max lo x`. -/
def clipLo (lo x : ℚ) : ℚ := if x ≤ lo then lo else x

/-- Absolute value on `ℚ`, written with `if` so that it reduces by `decide`. -/
def qabs (a : ℚ) : ℚ := if a ≤ 0 then -a else a

/-! ## odds.py -/

/-- odds.py lines 20-27: `american_to_decimal`.  Prices with
`-100 < a < 100` are not real American prices; the code falls back to
decimal odds `1.0` for them. -/
def american_to_decimal (a : ℚ) : ℚ :=
  if 100 ≤ a then 1 + a / 100
  else if a ≤ -100 then 1 + 100 / qabs a
  else 1

/-- odds.py lines 30-35: `american_to_implied`. -/
def american_to_implied (a : ℚ) : ℚ :=
  if 0 < a then 100 / (a + 100)
  else qabs a / (qabs a + 100)

/-- One raw odds row as produced by `fetch_two_td_odds` and
`fetch_sack_odds` (odds.py lines 227-239 and 292-304), restricted to the
fields that `normalize_book_odds` / `normalize_sack_odds` read or keep. -/
structure RawQuote where
  player : String
  book : String
  odds : ℤ
  implied_prob : ℚ
  line : Option ℚ
deriving DecidableEq

/-- The row order used by `df.sort_values("implied_prob")`. -/
def impliedLE (a b : RawQuote) : Prop := a.implied_prob ≤ b.implied_prob

instance : DecidableRel impliedLE :=
  fun a b => inferInstanceAs (Decidable (a.implied_prob ≤ b.implied_prob))

instance : IsTotal RawQuote impliedLE :=
  ⟨fun a b => le_total a.implied_prob b.implied_prob⟩

instance : IsTrans RawQuote impliedLE :=
  ⟨fun _ _ _ h h2 => le_trans h h2⟩

/-- `drop_duplicates(subset := player, keep := first)`: keep a row only
when its player key has not been seen yet. -/
def drop_duplicates_player : List RawQuote → List String → List RawQuote
  | [], _ => []
  | r :: rs, seen =>
    if r.player ∈ seen then drop_duplicates_player rs seen
    else r :: drop_duplicates_player rs (r.player :: seen)

/-- odds.py line 317 (shared by lines 312-318 and 321-327): sort the rows
ascending by implied probability and keep the first row per player.
pandas sorts with an unstable quicksort; the spec leaves tie order
arbitrary, and this embedding fixes it with a stable insertion sort. -/
def dedupe_best (rows : List RawQuote) : List RawQuote :=
  drop_duplicates_player (List.insertionSort impliedLE rows) []

/-- The projected output row of `normalize_book_odds`. -/
structure BookQuote where
  player : String
  odds : ℤ
  implied_prob : ℚ
deriving DecidableEq

/-- The projected output row of `normalize_sack_odds`. -/
structure SackQuote where
  player : String
  line : Option ℚ
  odds : ℤ
  implied_prob : ℚ
deriving DecidableEq

/-- odds.py lines 312-318: `normalize_book_odds`, including the final
projection to the columns `player`, `odds`, `implied_prob`. -/
def normalize_book_odds (rows : List RawQuote) : List BookQuote :=
  (dedupe_best rows).map fun r =>
    { player := r.player, odds := r.odds, implied_prob := r.implied_prob }

/-- odds.py lines 321-327: `normalize_sack_odds`, whose projection also
keeps the `line` column. -/
def normalize_sack_odds (rows : List RawQuote) : List SackQuote :=
  (dedupe_best rows).map fun r =>
    { player := r.player, line := r.line, odds := r.odds, implied_prob := r.implied_prob }

/-! ## staking.py -/

/-- The odds information of one row handed to `add_edge_and_stake`: either
a numeric value of a `decimal` column, or an American value of an
`american` / legacy `odds` column that `_ensure_decimal_odds`
(staking.py lines 39-58) converts. -/
inductive OddsColVal where
  | decimal (d : ℚ)
  | american (a : ℚ)
deriving DecidableEq

/-- staking.py lines 39-58, per row: the decimal odds value used. -/
def ensure_decimal_odds : OddsColVal → ℚ
  | .decimal d => d
  | .american a => american_to_decimal a

/-- An input row of `add_edge_and_stake`: a model-probability column and a
decimal or American odds column (the claims quantify over such tables;
tables that additionally carry a non-NaN `implied_prob` column keep it
unchanged and are not modelled here). -/
structure StakeIn where
  model_prob : ℚ
  odds : OddsColVal
deriving DecidableEq

/-- An output row of `add_edge_and_stake` (staking.py lines 76-102). -/
structure StakeOut where
  model_prob : ℚ
  decimal : ℚ
  implied_prob : Option ℚ
  p : ℚ
  b : ℚ
  kelly_full : ℚ
  edge : Option ℚ
  stake_units : ℚ
  stake_amount : ℚ
deriving DecidableEq

/-- staking.py lines 61-102, the computation of one row of
`add_edge_and_stake`:
* `implied_prob` is `np.where(decimal > 1, 1/decimal, np.nan)` (line 81),
  `none` standing for the NaN branch;
* `p` is the model probability clipped to `[1e-9, 1 - 1e-9]` (line 85);
* `kelly_full` is `(b*p - (1-p))/b` with the non-finite values that numpy
  produces at `b = 0` replaced by 0 (lines 88-91), hence the explicit
  zero-denominator branch;
* `stake_units` is `(kelly_fraction * kelly_full).clip(lower=0)` (line 96)
  and `stake_amount` is `stake_units * unit_size` (line 97). -/
def edge_and_stake_row (kelly_fraction unit_size : ℚ) (r : StakeIn) : StakeOut :=
  let d := ensure_decimal_odds r.odds
  let implied : Option ℚ := if 1 < d then some (1 / d) else none
  let p := clipQ (1 / 1000000000) (1 - 1 / 1000000000) r.model_prob
  let b := d - 1
  let kelly_full := if b = 0 then 0 else (b * p - (1 - p)) / b
  let stake_units := clipLo 0 (kelly_fraction * kelly_full)
  { model_prob := r.model_prob, decimal := d, implied_prob := implied, p := p, b := b,
    kelly_full := kelly_full, edge := implied.map (fun ip => p - ip),
    stake_units := stake_units, stake_amount := stake_units * unit_size }

/-- staking.py lines 61-102: `add_edge_and_stake` over a whole table. -/
def add_edge_and_stake (kelly_fraction unit_size : ℚ) (rows : List StakeIn) : List StakeOut :=
  rows.map (edge_and_stake_row kelly_fraction unit_size)

/-! ## evaluation.py -/

/-- A logged prediction row read back from the CSV log (evaluation.py
lines 29-30).  The `odds` field is the value of the log's `odds` column;
in this repository's pipeline that column carries the AMERICAN price:
`normalize_book_odds` writes `odds = int(price)` under
`ODDS_FORMAT = american` (odds.py lines 15 and 234), and
`add_edge_and_stake` keeps `odds` untouched while adding a separate
`decimal` column (staking.py line 79). -/
structure PredRow where
  player : String
  season : ℤ
  week : ℤ
  model_prob : ℚ
  odds : ℚ
  stake_units : ℚ
deriving DecidableEq

/-- A realized weekly stat row (evaluation.py lines 33-37); a missing
`rushing_td` / `receiving_td` column or NaN entry is `none`. -/
structure OutcomeRow where
  player : String
  rushing_td : Option ℚ
  receiving_td : Option ℚ
deriving DecidableEq

/-- numpy `astype(int)` on a float: truncation toward zero. -/
def astype_int (q : ℚ) : ℤ := if q < 0 then ⌈q⌉ else ⌊q⌋

/-- evaluation.py lines 34-37: realized touchdown count of one weekly row. -/
def tds_of (w : OutcomeRow) : ℚ := w.rushing_td.getD 0 + w.receiving_td.getD 0

/-- One row of the merged evaluation frame (evaluation.py lines 38-45). -/
structure ScoredRow where
  player : String
  model_prob : ℚ
  odds : ℚ
  stake_units : ℚ
  tds : ℤ
  hit : Bool
  profit : ℚ
  brier : ℚ
deriving DecidableEq

/-- evaluation.py lines 39-45: score one logged prediction against a
realized touchdown count `t`. -/
def score_row (p : PredRow) (t : ℤ) : ScoredRow :=
  { player := p.player, model_prob := p.model_prob, odds := p.odds,
    stake_units := p.stake_units, tds := t, hit := decide (2 ≤ t),
    profit := if 2 ≤ t then p.stake_units * (p.odds - 1) else -p.stake_units,
    brier := (p.model_prob - (if 2 ≤ t then 1 else 0)) ^ 2 }

/-- The metrics dict of evaluation.py lines 46-51. -/
structure EvalMetrics where
  n : ℕ
  hit_rate : ℚ
  roi : ℚ
  brier : ℚ
deriving DecidableEq

/-- evaluation.py lines 38-44: the left merge on `player` plus scoring.
A prediction row with no match is kept, with its realized count
`fillna(0)` (line 39); a prediction row with several matching weekly rows
is repeated once per match, exactly as a pandas left merge does. -/
def merge_scored (preds : List PredRow) (weekly : List OutcomeRow) : List ScoredRow :=
  preds.flatMap (fun p =>
    let ms := weekly.filter (fun w => w.player == p.player)
    if ms = [] then [score_row p 0] else ms.map (fun w => score_row p (astype_int (tds_of w))))

/-- evaluation.py lines 25-52: `evaluate_predictions`.  The prediction log
and the realized weekly stats are passed as inputs (reading the CSV and
`data.load_weekly_player_stats` are I/O). -/
def evaluate_predictions (season week : ℤ) (preds : List PredRow)
    (weekly : List OutcomeRow) : List ScoredRow × Option EvalMetrics :=
  let preds := preds.filter (fun p => decide (p.season = season ∧ p.week = week))
  if preds = [] then ([], none) else
  let merged := merge_scored preds weekly
  let total_stake := (merged.map (·.stake_units)).sum
  (merged,
   some { n := merged.length,
          hit_rate := ((merged.filter (·.hit)).length : ℚ) / (merged.length : ℚ),
          roi := if total_stake = 0 then 0 else (merged.map (·.profit)).sum / total_stake,
          brier := (merged.map (·.brier)).sum / (merged.length : ℚ) })

/-! ## model.py -/

/-- model.py line 23 and spec §4.2: Poisson tail probability of at least
two events at per-game rate `lam`. -/
noncomputable def poisson_ge2 (lam : ℝ) : ℝ := 1 - Real.exp (-lam) * (1 + lam)

/-- model.py line 49 and spec §4.2: Poisson tail probability of at least
one event at per-game rate `lam`. -/
noncomputable def poisson_ge1 (lam : ℝ) : ℝ := 1 - Real.exp (-lam)

/-- A feature row handed to `add_model_probability` (the output schema of
`compute_td_rate`); the numeric fields are `Option ℚ` because the model
re-coerces them with `pd.to_numeric(...).fillna` (model.py lines 16-27). -/
structure FeatRow where
  player : String
  team : String
  position : String
  games : Option ℚ
  two_plus : Option ℚ
  mean_td : Option ℚ
  recent_opps : ℚ
deriving DecidableEq

/-- An output row of `add_model_probability` (model.py line 33). -/
structure ModelRow where
  player : String
  team : String
  position : String
  recent_opps : ℚ
  model_prob : ℝ

/-- model.py line 16: `total_two_plus`. -/
def total_two_plus (rows : List FeatRow) : ℚ := (rows.map (fun r => r.two_plus.getD 0)).sum

/-- model.py line 17: `total_games`. -/
def total_games (rows : List FeatRow) : ℚ := (rows.map (fun r => r.games.getD 0)).sum

/-- model.py lines 16-19: the league prior, `total_two_plus / total_games`
when any games were seen and `0.01` otherwise, clamped to
`[0.002, 0.05]`. -/
def league_prior (rows : List FeatRow) : ℚ :=
  clipQ (2 / 1000) (5 / 100)
    (if 0 < total_games rows then total_two_plus rows / total_games rows else 1 / 100)

/-- `np.clip` over `ℝ`. -/
noncomputable def clipR (lo hi x : ℝ) : ℝ := min hi (max lo x)

/-- model.py lines 8-33: `add_model_probability`.  Per row: `lam` is
`mean_td` coerced, NaN-filled with 0 and clipped below at 0 (line 22); the
shrinkage weight is `games / (games + 8)` (lines 26-28); the output
probability is clipped to `[0, 0.30]` (line 31). -/
noncomputable def add_model_probability (rows : List FeatRow) : List ModelRow :=
  let p0 : ℚ := league_prior rows
  rows.map fun r =>
    let lam : ℝ := ((clipLo 0 (r.mean_td.getD 0) : ℚ) : ℝ)
    let g : ℝ := ((r.games.getD 0 : ℚ) : ℝ)
    let w : ℝ := g / (g + 8)
    { player := r.player, team := r.team, position := r.position,
      recent_opps := r.recent_opps,
      model_prob := clipR 0 (3 / 10) (w * poisson_ge2 lam + (1 - w) * (p0 : ℝ)) }

/-- A feature row handed to `add_sack_model_probability` (output schema of
`compute_sack_features`); numeric fields are `Option ℚ` because the model
re-coerces them with `pd.to_numeric(...).fillna` (model.py lines 40-46). -/
structure SackFeat where
  player : String
  pressures_per_game : Option ℚ
  prwin : Option ℚ
  pass_rush_snaps : Option ℚ
  opp_dropbacks : Option ℚ
  opp_sack_rate_allowed : Option ℚ
deriving DecidableEq

/-- model.py lines 40-43: the denominator actually used for
`pressure_rate`, namely
`pd.to_numeric(df["pass_rush_snaps"], errors := coerce).fillna(1.0)`:
only a missing or unparseable snaps value becomes 1. -/
def pressure_rate_den (r : SackFeat) : ℚ := r.pass_rush_snaps.getD 1

/-- model.py lines 40-43: `pressure_rate = pressures_per_game /
pass_rush_snaps`; `none` models the non-finite float (inf or NaN) that
numpy produces when the denominator is zero. -/
def pressure_rate (r : SackFeat) : Option ℚ :=
  if pressure_rate_den r = 0 then none
  else some (r.pressures_per_game.getD 0 / pressure_rate_den r)

/-- model.py lines 44-48: the raw sack rate
`lam = pressure_rate * prwin * opp_dropbacks * opp_sack_rate_allowed`;
non-finiteness of `pressure_rate` propagates into `lam`. -/
def sack_lam (r : SackFeat) : Option ℚ :=
  (pressure_rate r).map fun pr =>
    pr * r.prwin.getD 0 * r.opp_dropbacks.getD 30 * r.opp_sack_rate_allowed.getD (7 / 100)

/-! ## features.py and filters.py: dynamically-columned frames -/

/-- One cell of a feed table: a string, a number, or NaN.  (String cells
that pandas `to_numeric` would parse as numbers are modelled as `num`
cells.) -/
inductive Cell where
  | str (s : String)
  | num (q : ℚ)
  | nan
deriving DecidableEq

/-- A pandas DataFrame whose column set is dynamic: the list of column
names plus the rows, each mapping column names to cells.  Rows are only
ever read at columns listed in `cols`. -/
structure Frame where
  cols : List String
  rows : List (String → Cell)

/-- features.py lines 7-11: `_first_nonempty_col`, the first candidate
column name that is present. -/
def first_nonempty_col (t : Frame) (cands : List String) : Option String :=
  cands.find? (fun c => t.cols.contains c)

/-- `pd.to_numeric(cell, errors := coerce)`: numeric cells keep their
value, everything else becomes NaN. -/
def to_numeric : Cell → Option ℚ
  | .num q => some q
  | _ => none

/-- `astype(str)` on one cell. -/
def astype_str : Cell → String
  | .str s => s
  | .num q => toString q
  | .nan => "nan"

/-- features.py lines 43-49 and 90-96 (`_nz_int` without its final int
cast, and `_nz_float`): sum the candidate columns that are present,
coercing each and filling NaN with 0; with no candidate present the
result is 0. -/
def nz_sum (t : Frame) (cands : List String) (r : String → Cell) : ℚ :=
  ((cands.filter (fun c => t.cols.contains c)).map (fun c => (to_numeric (r c)).getD 0)).sum

/-- One output row of `compute_td_rate` (features.py line 87). -/
structure TdFeatRow where
  player : String
  team : String
  position : String
  games : ℕ
  two_plus : ℕ
  mean_td : ℚ
  recent_opps : ℚ
deriving DecidableEq

/-- Comparison by a rational sort key, for `df.sort_values`. -/
def ratKeyLE {α : Type} (f : α → ℚ) (a b : α) : Prop := f a ≤ f b

instance {α : Type} (f : α → ℚ) : DecidableRel (ratKeyLE f) :=
  fun a b => inferInstanceAs (Decidable (f a ≤ f b))

/-- Arithmetic mean of a list of rationals. -/
def qmean (l : List ℚ) : ℚ := l.sum / (l.length : ℚ)

/-- features.py lines 14-87: `compute_td_rate`.  The one fatal error is
the missing player-identity column (lines 25-27), the `Except.error`
branch.  The body groups rows by the (player, team, position) key; per
group `games` counts distinct non-NaN week values (`nunique`), `two_plus`
counts weeks whose touchdown total is at least 2, `mean_td` averages the
per-week touchdown total, and `recent_opps` is the trailing
`recent_window` rolling mean of opportunities at the most recent week,
computed over all rows of the player (the `groupby("player")` of lines
72-79 ignores the team and position keys).  With no week column each row
is its own game index (lines 37-40); week values are numeric in the feeds
and their sort key coerces NaN to 0.  The `games` fillna of line 83 is a
no-op here because every group is non-empty. -/
def compute_td_rate (weekly : Frame) (recent_window : ℕ := 4) :
    Except String (List TdFeatRow) :=
  match first_nonempty_col weekly ["player", "player_display_name", "full_name", "name"] with
  | none => .error "Could not find a player name column in weekly data."
  | some player_col =>
    let team_col := first_nonempty_col weekly ["recent_team", "team", "posteam"]
    let pos_col := first_nonempty_col weekly ["position", "pos"]
    let week_col := first_nonempty_col weekly ["week", "game_week"]
    let playerOf : (String → Cell) → String := fun r => astype_str (r player_col)
    let teamOf : (String → Cell) → String := fun r =>
      match team_col with | some c => astype_str (r c) | none => ""
    let posOf : (String → Cell) → String := fun r =>
      match pos_col with | some c => astype_str (r c) | none => ""
    let rows := weekly.rows.enum
    let weekCell : ℕ × (String → Cell) → Cell := fun x =>
      match week_col with | some c => x.2 c | none => .num (x.1 + 1)
    let td_total : (String → Cell) → ℤ := fun r =>
      astype_int (nz_sum weekly ["rushing_td", "rush_td", "rushing_tds"] r)
        + astype_int (nz_sum weekly ["receiving_td", "rec_td", "receiving_tds"] r)
    let opps : (String → Cell) → ℤ := fun r =>
      astype_int (nz_sum weekly ["rushing_att", "rushing_attempts", "rush_att", "carries"] r)
        + astype_int (nz_sum weekly ["targets", "rec_targets"] r)
    let keys := (rows.map (fun x => (playerOf x.2, teamOf x.2, posOf x.2))).dedup
    .ok <| keys.map fun k =>
      let grp := rows.filter (fun x =>
        decide (playerOf x.2 = k.1 ∧ teamOf x.2 = k.2.1 ∧ posOf x.2 = k.2.2))
      let games := (((grp.map weekCell).filter (fun c => decide (c ≠ Cell.nan))).dedup).length
      let two_plus := (grp.filter (fun x => decide (2 ≤ td_total x.2))).length
      let mean_td := ((grp.map (fun x => (td_total x.2 : ℚ))).sum) / (grp.length : ℚ)
      let prows := rows.filter (fun x => decide (playerOf x.2 = k.1))
      let sorted := List.insertionSort (ratKeyLE fun x => (to_numeric (weekCell x)).getD 0) prows
      let opp_list := sorted.map (fun x => (opps x.2 : ℚ))
      let lastw := opp_list.drop (opp_list.length - recent_window)
      { player := k.1, team := k.2.1, position := k.2.2, games := games,
        two_plus := two_plus, mean_td := mean_td, recent_opps := qmean lastw }

/-- One row of the opponent-context table built by
`_team_dropback_sack_rates` (features.py lines 99-136). -/
structure TeamRate where
  team : String
  dropbacks_per_game : ℚ
  sack_rate : ℚ
deriving DecidableEq

/-- One output row of `compute_sack_features` (features.py lines 187-199). -/
structure SackFeatRow where
  player : String
  team : String
  opponent : String
  position : String
  pressures_per_game : ℚ
  prwin : ℚ
  pass_rush_snaps : ℚ
  opp_dropbacks : ℚ
  opp_sack_rate_allowed : ℚ
deriving DecidableEq

/-- features.py lines 139-199: `compute_sack_features`.  The opponent
context is the output of `_team_dropback_sack_rates(season - 1)` (lines
99-136), whose play-by-play loading is I/O; that table is passed in as
`team_rates`.  The left merge of line 179 on a duplicate-free `team` key
is a first-match lookup; the league fallbacks of lines 181-185 are the
column means, or the constants 35.0 and 0.07 when the table is empty. -/
def compute_sack_features (weekly : Frame) (team_rates : List TeamRate) :
    Except String (List SackFeatRow) :=
  match first_nonempty_col weekly ["player", "player_display_name", "full_name", "name"] with
  | none => .error "Could not find a player name column in weekly data."
  | some player_col =>
    let team_col := first_nonempty_col weekly ["recent_team", "team", "posteam"]
    let opp_col := first_nonempty_col weekly ["opponent", "opp", "defteam", "opp_team"]
    let pos_col := first_nonempty_col weekly ["position", "pos"]
    let week_col := first_nonempty_col weekly ["week", "game_week"]
    let playerOf : (String → Cell) → String := fun r => astype_str (r player_col)
    let teamOf : (String → Cell) → String := fun r =>
      match team_col with | some c => astype_str (r c) | none => ""
    let oppOf : (String → Cell) → String := fun r =>
      match opp_col with | some c => astype_str (r c) | none => ""
    let posOf : (String → Cell) → String := fun r =>
      match pos_col with | some c => astype_str (r c) | none => ""
    let rows := weekly.rows.enum
    let weekCell : ℕ × (String → Cell) → Cell := fun x =>
      match week_col with | some c => x.2 c | none => .num (x.1 + 1)
    let pressuresOf : (String → Cell) → ℚ := fun r =>
      nz_sum weekly ["pressures", "qb_hits", "def_pressures"] r
    let prwinOf : (String → Cell) → ℚ := fun r =>
      clipQ 0 1 (nz_sum weekly ["prwin", "pass_rush_win_rate", "prwin_pct"] r)
    let snapsOf : (String → Cell) → ℚ := fun r =>
      nz_sum weekly ["pass_rushes", "pass_rush_snaps", "prsnaps"] r
    let keys := (rows.map (fun x => (playerOf x.2, teamOf x.2, oppOf x.2, posOf x.2))).dedup
    let league_dropbacks := if team_rates = [] then 35
      else qmean (team_rates.map (·.dropbacks_per_game))
    let league_sack_rate := if team_rates = [] then 7 / 100
      else qmean (team_rates.map (·.sack_rate))
    .ok <| keys.map fun k =>
      let grp := rows.filter (fun x =>
        decide (playerOf x.2 = k.1 ∧ teamOf x.2 = k.2.1 ∧ oppOf x.2 = k.2.2.1 ∧
          posOf x.2 = k.2.2.2))
      let games := (((grp.map weekCell).filter (fun c => decide (c ≠ Cell.nan))).dedup).length
      let tr := team_rates.find? (fun t => t.team == k.2.2.1)
      { player := k.1, team := k.2.1, opponent := k.2.2.1, position := k.2.2.2,
        pressures_per_game := (grp.map (fun x => pressuresOf x.2)).sum / clipLo 1 (games : ℚ),
        prwin := qmean (grp.map (fun x => prwinOf x.2)),
        pass_rush_snaps := (grp.map (fun x => snapsOf x.2)).sum,
        opp_dropbacks := (tr.map (·.dropbacks_per_game)).getD league_dropbacks,
        opp_sack_rate_allowed := (tr.map (·.sack_rate)).getD league_sack_rate }

/-- filters.py lines 10-14: the injury statuses that are excluded. -/
def EXCLUDE_STATUSES : List String :=
  ["out", "doubtful", "inactive", "questionable - inactive",
   "ir", "injured reserve", "pup", "physically unable to perform",
   "nfi", "non-football injury", "suspended"]

/-- filters.py lines 16-20: `_clean_name`, lower-case the name and strip
every character that is not a lower-case letter. -/
def clean_name (s : String) : String :=
  (s.toLower.toList.filter (fun ch => decide ('a' ≤ ch ∧ ch ≤ 'z'))).asString

/-- A row of the injury table returned by `load_injury_status`
(filters.py lines 23-75); that loader is network I/O and its result is
passed to `apply_filters` as an input. -/
structure InjRow where
  player : String
  injury_status : String
deriving DecidableEq

/-- filters.py lines 78-117: `apply_filters`.  The position and usage
filters (lines 96-103) drop rows in place.  The injury branch reproduces
the pandas semantics of lines 106-115: `df["player"]` raises `KeyError`
when the frame has no `player` column; otherwise the merge on `key`
suffixes every non-key column shared by the two frames (always `player`,
which the injury frame carries) to `player_x` / `player_y`, and the final
`merged.loc[~mask_bad, model_df.columns]` raises `KeyError` when some
original column is no longer present under its own name in the merged
frame.  `Except.error` models the raised `KeyError`.  A `positions`
argument of `None` and an empty one are both falsy and modelled as `[]`. -/
def apply_filters (model_df : Frame) (positions : List String)
    (min_recent_opps : ℚ) (exclude_injured : Bool)
    (season week : Option ℤ) (inj : List InjRow) : Except String Frame :=
  let rows1 :=
    if positions ≠ [] ∧ model_df.cols.contains "position" then
      let keep := ((positions.map String.trim).filter (fun p => p ≠ "")).map String.toUpper
      if keep ≠ [] then
        model_df.rows.filter (fun r => keep.contains (astype_str (r "position")).toUpper)
      else model_df.rows
    else model_df.rows
  let rows2 :=
    if model_df.cols.contains "recent_opps" then
      rows1.filter (fun r => decide (min_recent_opps ≤ (to_numeric (r "recent_opps")).getD 0))
    else rows1
  if exclude_injured ∧ season.isSome ∧ week.isSome ∧ inj ≠ [] then
    if ¬ model_df.cols.contains "player" then
      .error "KeyError: player"
    else
      let df_cols := model_df.cols ++ ["key"]
      let inj_cols := ["player", "injury_status_raw", "key"]
      let overlap := df_cols.filter (fun c => inj_cols.contains c && c != "key")
      let merged_cols :=
        df_cols.map (fun c => if overlap.contains c then c ++ "_x" else c)
          ++ (inj_cols.filter (fun c => c != "key")).map
              (fun c => if overlap.contains c then c ++ "_y" else c)
          ++ ["injury_status"]
      if model_df.cols.all (fun c => merged_cols.contains c) then
        -- line 115 projects back to the original columns; with `player`
        -- suffixed away this branch is unreachable, but its row logic is
        -- still embedded: left-merge each row with its matching injury
        -- rows on the cleaned name and drop the bad statuses
        let kept := rows2.flatMap (fun r =>
          let k := clean_name (astype_str (r "player"))
          let ms := inj.filter (fun j => clean_name j.player == k)
          if ms = [] then [(r, "")] else ms.map (fun j => (r, j.injury_status)))
        .ok { cols := model_df.cols,
              rows := (kept.filter (fun x => !(EXCLUDE_STATUSES.contains x.2))).map (·.1) }
      else
        .error "KeyError: model_df.columns not all present in merged frame"
  else
    .ok { cols := model_df.cols, rows := rows2 }

/-! ## Theorems -/

/-- Claim C7: for American odds `a ≥ 100`, `american_to_implied a =
100/(a+100)` and `american_to_decimal a = 1 + a/100`; for `a ≤ -100`,
`american_to_implied a = |a|/(|a|+100)` and `american_to_decimal a =
1 + 100/|a|`; `+150` gives decimal `2.5` and implied `0.4`, `-200` gives
decimal `1.5` and implied `2/3`; reconstructing the implied probability
from the decimal odds (`implied = 1/decimal`) agrees with
`american_to_implied`, and repeating the reconstruction is idempotent. -/
theorem C7_american_conversions (a : ℚ) :
    (100 ≤ a → american_to_implied a = 100 / (a + 100) ∧
      american_to_decimal a = 1 + a / 100) ∧
    (a ≤ -100 → american_to_implied a = qabs a / (qabs a + 100) ∧
      american_to_decimal a = 1 + 100 / qabs a) ∧
    (100 ≤ a ∨ a ≤ -100 →
      1 / american_to_decimal a = american_to_implied a ∧
      1 / (1 / american_to_decimal a) = american_to_decimal a) ∧
    american_to_decimal 150 = 5 / 2 ∧ american_to_implied 150 = 2 / 5 ∧
    american_to_decimal (-200) = 3 / 2 ∧ american_to_implied (-200) = 2 / 3 := by
  refine ⟨fun h => ?_, fun h => ?_, fun h => ?_,
    by norm_num [american_to_decimal], by norm_num [american_to_implied],
    by norm_num [american_to_decimal, qabs], by norm_num [american_to_implied, qabs]⟩
  · have h0 : 0 < a := by linarith
    rw [american_to_implied, if_pos h0, american_to_decimal, if_pos h]
    exact ⟨rfl, rfl⟩
  · have h0 : ¬ 0 < a := by linarith
    have h1 : ¬ 100 ≤ a := by linarith
    rw [american_to_implied, if_neg h0, american_to_decimal, if_neg h1, if_pos h]
    exact ⟨rfl, rfl⟩
  · rcases h with h | h
    · have h0 : 0 < a := by linarith
      have hne : a + 100 ≠ 0 := by positivity
      rw [american_to_decimal, if_pos h, american_to_implied, if_pos h0]
      have hd : (0:ℚ) < 1 + a / 100 := by positivity
      refine ⟨?_, ?_⟩
      · field_simp
        ring
      · rw [one_div_one_div]
    · have h0 : ¬ 0 < a := by linarith
      have h1 : ¬ 100 ≤ a := by linarith
      have habs : qabs a = -a := by rw [qabs, if_pos (by linarith)]
      rw [american_to_decimal, if_neg h1, if_pos h, american_to_implied, if_neg h0, habs]
      have hna : (0:ℚ) < -a := by linarith
      have hd : (0:ℚ) < 1 + 100 / -a := by positivity
      have hne2 : -a + 100 ≠ 0 := by positivity
      refine ⟨?_, ?_⟩
      · field_simp
      · rw [one_div_one_div]

/-- Witness for C7 at the concrete prices `+150` and `-200`. -/
theorem C7_witness :
    american_to_implied 150 = 100 / (150 + 100) ∧
    american_to_decimal (-200) = 1 + 100 / qabs (-200) ∧
    1 / american_to_decimal 150 = american_to_implied 150 :=
  ⟨((C7_american_conversions 150).1 (by norm_num)).1,
   ((C7_american_conversions (-200)).2.1 (by norm_num)).2,
   ((C7_american_conversions 150).2.2.1 (Or.inl (by norm_num))).1⟩

/-- Claim C9: an American odds value strictly between -100 and 100 is not
a real price; `american_to_decimal` maps it to decimal odds 1, so the
payout `b = decimal - 1` of such a row in `add_edge_and_stake` is 0 and
the row gets `kelly_full = 0` and `stake_units = 0` instead of a NaN or
infinite value. -/
theorem C9_invalid_american_price_zero_stake (a kf u p : ℚ)
    (h1 : -100 < a) (h2 : a < 100) :
    american_to_decimal a = 1 ∧
    (edge_and_stake_row kf u { model_prob := p, odds := .american a }).b = 0 ∧
    (edge_and_stake_row kf u { model_prob := p, odds := .american a }).kelly_full = 0 ∧
    (edge_and_stake_row kf u { model_prob := p, odds := .american a }).stake_units = 0 := by
  have hd : american_to_decimal a = 1 := by
    rw [american_to_decimal, if_neg (by linarith), if_neg (by linarith)]
  refine ⟨hd, ?_, ?_, ?_⟩ <;>
    simp [edge_and_stake_row, ensure_decimal_odds, hd, clipLo]

/-- Witness for C9 at the concrete invalid price `+50`. -/
theorem C9_witness :
    american_to_decimal 50 = 1 ∧
    (edge_and_stake_row (1 / 2) 1 { model_prob := 1 / 2, odds := .american 50 }).stake_units = 0 :=
  ⟨(C9_invalid_american_price_zero_stake 50 (1 / 2) 1 (1 / 2) (by norm_num) (by norm_num)).1,
   (C9_invalid_american_price_zero_stake 50 (1 / 2) 1 (1 / 2) (by norm_num) (by norm_num)).2.2.2⟩

theorem clipLo_nonneg (y : ℚ) : 0 ≤ clipLo 0 y := by
  simp only [clipLo]
  split_ifs with h
  · exact le_refl 0
  · linarith

theorem clipLo_zero_mul (kf y : ℚ) (h : 0 ≤ kf) : clipLo 0 (kf * y) = kf * clipLo 0 y := by
  simp only [clipLo]
  split_ifs with h1 h2 h2
  · ring
  · push_neg at h2
    nlinarith
  · push_neg at h1
    nlinarith
  · rfl

/-- Claim C1: on a table with a model-probability column and a decimal or
American odds column, for `kelly_fraction ≥ 0` and any `unit_size`,
`add_edge_and_stake` computes per row `kelly_full = (b*p - (1-p))/b` with
`b = decimal - 1` and `p` the model probability clipped into
`[1e-9, 1 - 1e-9]` (with the `b = 0` division degeneracy floored to 0),
`stake_units = kelly_fraction * max 0 kelly_full` and
`stake_amount = stake_units * unit_size`; every `stake_units` is a
well-defined nonnegative rational, and a row whose clipped probability is
at most its implied probability has `stake_units = 0`. -/
theorem C1_add_edge_and_stake_spec (kf u : ℚ) (hkf : 0 ≤ kf) (rows : List StakeIn) :
    add_edge_and_stake kf u rows = rows.map (edge_and_stake_row kf u) ∧
    ∀ r : StakeIn, ∀ o : StakeOut, o = edge_and_stake_row kf u r →
      o.decimal = ensure_decimal_odds r.odds ∧
      o.b = o.decimal - 1 ∧
      o.p = clipQ (1 / 1000000000) (1 - 1 / 1000000000) r.model_prob ∧
      (o.b ≠ 0 → o.kelly_full = (o.b * o.p - (1 - o.p)) / o.b) ∧
      (o.b = 0 → o.kelly_full = 0) ∧
      o.stake_units = kf * clipLo 0 o.kelly_full ∧
      o.stake_amount = o.stake_units * u ∧
      0 ≤ o.stake_units ∧
      ∀ q : ℚ, o.implied_prob = some q → o.p ≤ q → o.stake_units = 0 := by
  refine ⟨rfl, fun r o ho => ?_⟩
  subst ho
  refine ⟨rfl, rfl, rfl, fun hb => ?_, fun hb => ?_,
    clipLo_zero_mul kf _ hkf, rfl, clipLo_nonneg _, ?_⟩
  · simp only [edge_and_stake_row] at hb ⊢
    rw [if_neg hb]
  · simp only [edge_and_stake_row] at hb ⊢
    rw [if_pos hb]
  intro q hq hpq
  simp only [edge_and_stake_row] at hq hpq ⊢
  by_cases hd1 : 1 < ensure_decimal_odds r.odds
  · rw [if_pos hd1, Option.some.injEq] at hq
    set d := ensure_decimal_odds r.odds with hdef
    set p := clipQ (1 / 1000000000) (1 - 1 / 1000000000) r.model_prob with hpdef
    have hbpos : (0:ℚ) < d - 1 := by linarith
    have hbne : d - 1 ≠ 0 := ne_of_gt hbpos
    rw [if_neg hbne]
    have hdpos : (0:ℚ) < d := by linarith
    have hpq2 : p ≤ 1 / d := by rw [hq]; exact hpq
    have hpd : p * d ≤ 1 := by
      have h1 := mul_le_mul_of_nonneg_right hpq2 hdpos.le
      rwa [one_div, inv_mul_cancel₀ (ne_of_gt hdpos)] at h1
    have hnum : (d - 1) * p - (1 - p) ≤ 0 := by nlinarith
    have hk : ((d - 1) * p - (1 - p)) / (d - 1) ≤ 0 := by
      rw [div_nonpos_iff]
      exact Or.inr ⟨hnum, hbpos.le⟩
    have hkk : kf * (((d - 1) * p - (1 - p)) / (d - 1)) ≤ 0 := by
      have := mul_le_mul_of_nonneg_left hk hkf
      simpa using this
    simp only [clipLo]
    rw [if_pos hkk]
  · rw [if_neg hd1] at hq
    exact absurd hq (by simp)

/-- Witness for C1: at price `+150` a clipped model probability of `0.3`
is below the implied probability `0.4`, and the stake is exactly 0. -/
theorem C1_witness :
    (edge_and_stake_row (1 / 2) 1 { model_prob := 3 / 10, odds := .american 150 }).p ≤ 2 / 5 ∧
    (edge_and_stake_row (1 / 2) 1 { model_prob := 3 / 10, odds := .american 150 }).stake_units = 0 := by
  have himp : (edge_and_stake_row (1 / 2) 1
      { model_prob := 3 / 10, odds := .american 150 }).implied_prob = some (2 / 5) := by
    norm_num [edge_and_stake_row, ensure_decimal_odds, american_to_decimal]
  have hp : (edge_and_stake_row (1 / 2) 1
      { model_prob := 3 / 10, odds := .american 150 }).p ≤ 2 / 5 := by
    norm_num [edge_and_stake_row, ensure_decimal_odds, american_to_decimal, clipQ]
  exact ⟨hp,
    ((C1_add_edge_and_stake_spec (1 / 2) 1 (by norm_num) []).2
      { model_prob := 3 / 10, odds := .american 150 } _ rfl).2.2.2.2.2.2.2.2 (2 / 5) himp hp⟩

/-- Claim C4: on `lam ≥ 0` the TD-model tail `poisson_ge2 lam =
1 - exp(-lam)(1+lam)` is strictly increasing, lies in `[0, 1)` and is 0
at `lam = 0`; the sack-model tail `poisson_ge1 lam = 1 - exp(-lam)` has
the same monotonicity, range and zero-at-zero properties. -/
theorem C4_poisson_tail_props :
    StrictMonoOn poisson_ge2 (Set.Ici 0) ∧
    (∀ lam : ℝ, 0 ≤ lam → poisson_ge2 lam ∈ Set.Ico (0:ℝ) 1) ∧
    poisson_ge2 0 = 0 ∧
    StrictMonoOn poisson_ge1 (Set.Ici 0) ∧
    (∀ lam : ℝ, 0 ≤ lam → poisson_ge1 lam ∈ Set.Ico (0:ℝ) 1) ∧
    poisson_ge1 0 = 0 := by
  refine ⟨?_, ?_, ?_, ?_, ?_, ?_⟩
  · intro a ha b hb hab
    simp only [Set.mem_Ici] at ha hb
    simp only [poisson_ge2]
    have hkey : (1:ℝ) + b < (1 + a) * Real.exp (b - a) := by
      have h1 : (b - a) + 1 < Real.exp (b - a) := Real.add_one_lt_exp (by linarith)
      nlinarith [h1]
    have h2 : Real.exp (-b) * (1 + b) < Real.exp (-b) * ((1 + a) * Real.exp (b - a)) :=
      mul_lt_mul_of_pos_left hkey (Real.exp_pos _)
    have h3 : Real.exp (-b) * ((1 + a) * Real.exp (b - a)) = Real.exp (-a) * (1 + a) := by
      rw [mul_comm (1 + a) (Real.exp (b - a)), ← mul_assoc, ← Real.exp_add]
      ring_nf
    linarith [h2, h3]
  · intro lam h
    simp only [poisson_ge2, Set.mem_Ico]
    constructor
    · have h1 : lam + 1 ≤ Real.exp lam := Real.add_one_le_exp lam
      have h2 : Real.exp (-lam) * (1 + lam) ≤ Real.exp (-lam) * Real.exp lam :=
        mul_le_mul_of_nonneg_left (by linarith) (Real.exp_pos _).le
      have h3 : Real.exp (-lam) * Real.exp lam = 1 := by
        rw [← Real.exp_add]; norm_num
      linarith
    · have h4 : 0 < Real.exp (-lam) * (1 + lam) :=
        mul_pos (Real.exp_pos _) (by linarith)
      linarith
  · simp [poisson_ge2, Real.exp_zero]
  · intro a _ b _ hab
    simp only [poisson_ge1]
    have := Real.exp_lt_exp.mpr (show -b < -a by linarith)
    linarith
  · intro lam h
    simp only [poisson_ge1, Set.mem_Ico]
    have h1 : Real.exp (-lam) ≤ 1 := Real.exp_le_one_iff.mpr (by linarith)
    have h2 : 0 < Real.exp (-lam) := Real.exp_pos _
    constructor <;> linarith
  · simp [poisson_ge1, Real.exp_zero]

/-- Witness for C4 at the concrete rate `lam = 1`. -/
theorem C4_witness :
    poisson_ge2 0 = 0 ∧ poisson_ge2 1 ∈ Set.Ico (0:ℝ) 1 ∧
    poisson_ge1 1 ∈ Set.Ico (0:ℝ) 1 :=
  ⟨C4_poisson_tail_props.2.2.1,
   C4_poisson_tail_props.2.1 1 (by norm_num),
   C4_poisson_tail_props.2.2.2.2.1 1 (by norm_num)⟩

theorem clipQ_mem (lo hi x : ℚ) (h : lo ≤ hi) :
    lo ≤ clipQ lo hi x ∧ clipQ lo hi x ≤ hi := by
  simp only [clipQ]
  split_ifs with h1 h2 <;> constructor <;> linarith

theorem clipR_eq_self (lo hi x : ℝ) (h1 : lo ≤ x) (h2 : x ≤ hi) :
    clipR lo hi x = x := by
  simp [clipR, max_eq_right h1, min_eq_right h2]

/-- Claim C3: on a feature table with a positive total games count,
`add_model_probability` gives every row the probability
`w * poisson_ge2 lam + (1 - w) * p0` clipped to `[0, 0.30]`, where
`w = games/(games+8)` and `p0` is the league prior
`(sum two_plus)/(sum games)` clamped to `[0.002, 0.05]`; hence every
output satisfies `0 ≤ model_prob ≤ 0.30`, and a row with `games = 0`
receives exactly the clamped league prior. -/
theorem C3_add_model_probability_spec (rows : List FeatRow) (h : 0 < total_games rows) :
    (∀ r ∈ rows,
      ({ player := r.player, team := r.team, position := r.position,
         recent_opps := r.recent_opps,
         model_prob := clipR 0 (3 / 10)
           ((((r.games.getD 0 : ℚ) : ℝ) / (((r.games.getD 0 : ℚ) : ℝ) + 8)) *
              poisson_ge2 (((clipLo 0 (r.mean_td.getD 0) : ℚ) : ℝ))
            + (1 - (((r.games.getD 0 : ℚ) : ℝ) / (((r.games.getD 0 : ℚ) : ℝ) + 8))) *
              ((clipQ (2 / 1000) (5 / 100) (total_two_plus rows / total_games rows) : ℚ) : ℝ)) } :
        ModelRow) ∈ add_model_probability rows) ∧
    (∀ m ∈ add_model_probability rows, 0 ≤ m.model_prob ∧ m.model_prob ≤ 3 / 10) ∧
    (∀ r ∈ rows, r.games.getD 0 = 0 →
      ({ player := r.player, team := r.team, position := r.position,
         recent_opps := r.recent_opps,
         model_prob := ((league_prior rows : ℚ) : ℝ) } : ModelRow) ∈ add_model_probability rows) := by
  have hp0 : league_prior rows =
      clipQ (2 / 1000) (5 / 100) (total_two_plus rows / total_games rows) := by
    rw [league_prior, if_pos h]
  refine ⟨fun r hr => ?_, fun m hm => ?_, fun r hr hg => ?_⟩
  · simp only [add_model_probability]
    refine List.mem_map.mpr ⟨r, hr, ?_⟩
    rw [hp0]
  · simp only [add_model_probability] at hm
    obtain ⟨r, hr, rfl⟩ := List.mem_map.mp hm
    refine ⟨?_, ?_⟩ <;> simp only [clipR]
    · exact le_min (by norm_num) (le_max_left _ _)
    · exact min_le_left _ _
  · simp only [add_model_probability]
    refine List.mem_map.mpr ⟨r, hr, ?_⟩
    have hb1 : (0:ℚ) ≤ league_prior rows :=
      le_trans (by norm_num) (clipQ_mem (2 / 1000) (5 / 100) _ (by norm_num)).1
    have hb2 : league_prior rows ≤ 3 / 10 :=
      le_trans (clipQ_mem (2 / 1000) (5 / 100) _ (by norm_num)).2 (by norm_num)
    have hc1 : (0:ℝ) ≤ ((league_prior rows : ℚ) : ℝ) := by exact_mod_cast hb1
    have hc2 : ((league_prior rows : ℚ) : ℝ) ≤ 3 / 10 := by
      have h3 := (Rat.cast_le (K := ℝ)).mpr hb2
      push_cast at h3
      exact h3
    simp [hg, clipR_eq_self _ _ _ hc1 hc2]

/-- Witness for C3: a two-player table with 10 total games; the league
prior `1/10` clamps to `1/20` and the zero-games player receives it. -/
theorem C3_witness :
    ({ player := "B", team := "KC", position := "RB", recent_opps := 0,
       model_prob := ((1 : ℝ) / 20) } : ModelRow) ∈
      add_model_probability
        [{ player := "A", team := "KC", position := "RB",
           games := some 10, two_plus := some 1, mean_td := some 1, recent_opps := 0 },
         { player := "B", team := "KC", position := "RB",
           games := some 0, two_plus := some 0, mean_td := some 0, recent_opps := 0 }] := by
  have h := (C3_add_model_probability_spec
      [{ player := "A", team := "KC", position := "RB",
         games := some 10, two_plus := some 1, mean_td := some 1, recent_opps := 0 },
       { player := "B", team := "KC", position := "RB",
         games := some 0, two_plus := some 0, mean_td := some 0, recent_opps := 0 }]
      (by norm_num [total_games])).2.2
      { player := "B", team := "KC", position := "RB",
        games := some 0, two_plus := some 0, mean_td := some 0, recent_opps := 0 }
      (by simp) rfl
  have hlp : league_prior
      [{ player := "A", team := "KC", position := "RB",
         games := some 10, two_plus := some 1, mean_td := some 1, recent_opps := 0 },
       { player := "B", team := "KC", position := "RB",
         games := some 0, two_plus := some 0, mean_td := some 0, recent_opps := 0 }] = 1 / 20 := by
    norm_num [league_prior, total_games, total_two_plus, clipQ]
  rw [hlp] at h
  have hcast : (((1 : ℚ) / 20 : ℚ) : ℝ) = (1 : ℝ) / 20 := by norm_num
  rw [hcast] at h
  exact h

/-- Claim C5 counterexample: a sack-model row with a present
`pass_rush_snaps` value of 0 uses denominator 0 (not a denominator of at
least 1 as claimed), and its `pressure_rate` is not finite. -/
theorem C5_counterexample :
    ¬ (1 ≤ pressure_rate_den
        { player := "A", pressures_per_game := some 1, prwin := some 1,
          pass_rush_snaps := some 0, opp_dropbacks := some 35,
          opp_sack_rate_allowed := some (7 / 100) }) ∧
    pressure_rate
        { player := "A", pressures_per_game := some 1, prwin := some 1,
          pass_rush_snaps := some 0, opp_dropbacks := some 35,
          opp_sack_rate_allowed := some (7 / 100) } = none ∧
    sack_lam
        { player := "A", pressures_per_game := some 1, prwin := some 1,
          pass_rush_snaps := some 0, opp_dropbacks := some 35,
          opp_sack_rate_allowed := some (7 / 100) } = none := by
  refine ⟨by norm_num [pressure_rate_den], ?_, ?_⟩ <;>
    simp [pressure_rate, sack_lam, pressure_rate_den]

/-- Claim C5 (amended): the sack model guards `pressure_rate =
pressures_per_game / pass_rush_snaps` only against a missing snaps value
(`fillna(1.0)`), not against zero: a row with missing snaps uses
denominator 1 and gets a finite `pressure_rate` and `lam`, any row with a
nonzero denominator is finite, but a row with a present snaps value of 0
divides by zero and its `pressure_rate` and `lam` are non-finite. -/
theorem C5_snaps_guard_amended (r : SackFeat) :
    (r.pass_rush_snaps = none →
      pressure_rate_den r = 1 ∧ (pressure_rate r).isSome ∧ (sack_lam r).isSome) ∧
    (pressure_rate_den r ≠ 0 → (pressure_rate r).isSome ∧ (sack_lam r).isSome) ∧
    (pressure_rate_den r = 0 → pressure_rate r = none ∧ sack_lam r = none) := by
  refine ⟨fun hn => ?_, fun hnz => ?_, fun hz => ?_⟩
  · have h1 : pressure_rate_den r = 1 := by rw [pressure_rate_den, hn]; rfl
    refine ⟨h1, ?_, ?_⟩ <;>
      simp [pressure_rate, sack_lam, h1]
  · simp [pressure_rate, sack_lam, hnz]
  · simp [pressure_rate, sack_lam, hz]

/-- Witness for C5 (amended) at a concrete row with missing snaps and a
concrete row with snaps 8. -/
theorem C5_witness :
    (pressure_rate
      { player := "A", pressures_per_game := some 2, prwin := some 1,
        pass_rush_snaps := none, opp_dropbacks := some 35,
        opp_sack_rate_allowed := some (7 / 100) }).isSome ∧
    (pressure_rate
      { player := "B", pressures_per_game := some 2, prwin := some 1,
        pass_rush_snaps := some 8, opp_dropbacks := some 35,
        opp_sack_rate_allowed := some (7 / 100) }).isSome :=
  ⟨((C5_snaps_guard_amended _).1 rfl).2.1,
   ((C5_snaps_guard_amended _).2.1 (by norm_num [pressure_rate_den])).1⟩

/-- Claim C8: when none of the player-identity aliases (`player`,
`player_display_name`, `full_name`, `name`) is a column of the weekly
table, `compute_td_rate` and `compute_sack_features` fail with the
missing-column error instead of returning a result; when one of them is
present, no identity error is raised and a result is returned. -/
theorem C8_missing_identity_column (weekly : Frame) (team_rates : List TeamRate) :
    ((∀ c ∈ ["player", "player_display_name", "full_name", "name"], c ∉ weekly.cols) →
      compute_td_rate weekly = .error "Could not find a player name column in weekly data." ∧
      compute_sack_features weekly team_rates =
        .error "Could not find a player name column in weekly data.") ∧
    ((∃ c ∈ ["player", "player_display_name", "full_name", "name"], c ∈ weekly.cols) →
      (∃ res, compute_td_rate weekly = .ok res) ∧
      (∃ res, compute_sack_features weekly team_rates = .ok res)) := by
  constructor
  · intro hno
    have hfind : first_nonempty_col weekly
        ["player", "player_display_name", "full_name", "name"] = none := by
      simp only [first_nonempty_col]
      rw [List.find?_eq_none]
      intro c hc
      simpa using hno c hc
    constructor
    · rw [compute_td_rate, hfind]
    · rw [compute_sack_features, hfind]
  · intro hyes
    have hfind : (first_nonempty_col weekly
        ["player", "player_display_name", "full_name", "name"]).isSome := by
      simp only [first_nonempty_col]
      rw [List.find?_isSome]
      obtain ⟨c, hc, hmem⟩ := hyes
      exact ⟨c, hc, by simpa using hmem⟩
    obtain ⟨c0, hc0⟩ := Option.isSome_iff_exists.mp hfind
    constructor
    · exact ⟨_, by rw [compute_td_rate, hc0]⟩
    · exact ⟨_, by rw [compute_sack_features, hc0]⟩

/-- Witness for C8 at a concrete table with no identity alias and one
with a `player` column. -/
theorem C8_witness :
    compute_td_rate { cols := ["foo"], rows := [] } =
      .error "Could not find a player name column in weekly data." ∧
    (∃ res, compute_td_rate { cols := ["player"], rows := [] } = .ok res) :=
  ⟨((C8_missing_identity_column { cols := ["foo"], rows := [] } []).1 (by decide)).1,
   ((C8_missing_identity_column { cols := ["player"], rows := [] } []).2
      ⟨"player", by decide, by decide⟩).1⟩

/-- Claim C2 at a failing input: spec §4.5 defines profit on a hit as
stake × (decimal_odds − 1), but evaluation.py line 42 multiplies the
stake by the log's `odds` column minus 1, and in this pipeline that
column carries AMERICAN odds.  For a logged bet at −200 with stake 1
whose player hits (2 realized touchdowns), the code reports profit
−201 while the claimed formula gives stake × (decimal − 1) = 1/2.  The
join itself does match the claim: the row is kept and scored, not
dropped. -/
theorem C2_profit_uses_american_odds :
    (evaluate_predictions 2025 6
        [{ player := "A", season := 2025, week := 6, model_prob := 1 / 2,
           odds := -200, stake_units := 1 }]
        [{ player := "A", rushing_td := some 2, receiving_td := some 0 }]).1 =
      [score_row { player := "A", season := 2025, week := 6, model_prob := 1 / 2,
                   odds := -200, stake_units := 1 } 2] ∧
    (score_row { player := "A", season := 2025, week := 6, model_prob := 1 / 2,
                 odds := -200, stake_units := 1 } 2).hit = true ∧
    (score_row { player := "A", season := 2025, week := 6, model_prob := 1 / 2,
                 odds := -200, stake_units := 1 } 2).profit = -201 ∧
    (score_row { player := "A", season := 2025, week := 6, model_prob := 1 / 2,
                 odds := -200, stake_units := 1 } 2).stake_units *
      (american_to_decimal (-200) - 1) = 1 / 2 ∧
    (score_row { player := "A", season := 2025, week := 6, model_prob := 1 / 2,
                 odds := -200, stake_units := 1 } 2).profit ≠
      (score_row { player := "A", season := 2025, week := 6, model_prob := 1 / 2,
                   odds := -200, stake_units := 1 } 2).stake_units *
        (american_to_decimal (-200) - 1) := by
  refine ⟨?_, ?_, ?_, ?_, ?_⟩
  · norm_num [evaluate_predictions, merge_scored, tds_of, astype_int]
  · norm_num [score_row]
  · norm_num [score_row]
  · norm_num [score_row, american_to_decimal, qabs]
  · norm_num [score_row, american_to_decimal, qabs]

theorem ddp_subset (l : List RawQuote) (seen : List String) :
    ∀ r ∈ drop_duplicates_player l seen, r ∈ l := by
  induction l generalizing seen with
  | nil => simp [drop_duplicates_player]
  | cons a as ih =>
    intro r hr
    rw [drop_duplicates_player] at hr
    by_cases h : a.player ∈ seen
    · rw [if_pos h] at hr
      exact List.mem_cons_of_mem a (ih seen r hr)
    · rw [if_neg h] at hr
      rcases List.mem_cons.mp hr with rfl | hr'
      · exact List.mem_cons_self _ _
      · exact List.mem_cons_of_mem a (ih _ r hr')

theorem ddp_not_seen (l : List RawQuote) (seen : List String) :
    ∀ r ∈ drop_duplicates_player l seen, r.player ∉ seen := by
  induction l generalizing seen with
  | nil => simp [drop_duplicates_player]
  | cons a as ih =>
    intro r hr
    rw [drop_duplicates_player] at hr
    by_cases h : a.player ∈ seen
    · rw [if_pos h] at hr
      exact ih seen r hr
    · rw [if_neg h] at hr
      rcases List.mem_cons.mp hr with rfl | hr'
      · exact h
      · exact fun hmem => ih _ r hr' (List.mem_cons_of_mem _ hmem)

theorem ddp_keys_nodup (l : List RawQuote) (seen : List String) :
    ((drop_duplicates_player l seen).map (·.player)).Nodup := by
  induction l generalizing seen with
  | nil => simp [drop_duplicates_player]
  | cons a as ih =>
    rw [drop_duplicates_player]
    by_cases h : a.player ∈ seen
    · rw [if_pos h]
      exact ih seen
    · rw [if_neg h]
      rw [List.map_cons, List.nodup_cons]
      refine ⟨fun hmem => ?_, ih _⟩
      obtain ⟨r, hr, hre⟩ := List.mem_map.mp hmem
      exact ddp_not_seen as (a.player :: seen) r hr (hre ▸ List.mem_cons_self _ _)

theorem ddp_sorted_min (l : List RawQuote) (seen : List String)
    (hs : List.Sorted impliedLE l) :
    ∀ r ∈ drop_duplicates_player l seen, ∀ s ∈ l, s.player = r.player →
      r.implied_prob ≤ s.implied_prob := by
  induction l generalizing seen with
  | nil => simp
  | cons a as ih =>
    obtain ⟨hhead, htail⟩ := List.sorted_cons.mp hs
    intro r hr s hsmem hps
    rw [drop_duplicates_player] at hr
    by_cases h : a.player ∈ seen
    · rw [if_pos h] at hr
      rcases List.mem_cons.mp hsmem with rfl | hsmem'
      · exact absurd (hps ▸ h) (ddp_not_seen as seen r hr)
      · exact ih seen htail r hr s hsmem' hps
    · rw [if_neg h] at hr
      rcases List.mem_cons.mp hr with rfl | hr'
      · rcases List.mem_cons.mp hsmem with rfl | hsmem'
        · exact le_refl _
        · exact hhead s hsmem'
      · have hrns := ddp_not_seen as (a.player :: seen) r hr'
        rcases List.mem_cons.mp hsmem with rfl | hsmem'
        · exact absurd (hps ▸ List.mem_cons_self _ _) hrns
        · exact ih _ htail r hr' s hsmem' hps

theorem ddp_eq_self (l : List RawQuote) (seen : List String)
    (hnd : (l.map (·.player)).Nodup) (hdisj : ∀ r ∈ l, r.player ∉ seen) :
    drop_duplicates_player l seen = l := by
  induction l generalizing seen with
  | nil => rfl
  | cons a as ih =>
    rw [drop_duplicates_player, if_neg (hdisj a (List.mem_cons_self a as))]
    rw [List.map_cons, List.nodup_cons] at hnd
    congr 1
    refine ih _ hnd.2 fun r hr => ?_
    intro hmem
    rcases List.mem_cons.mp hmem with he | hmem'
    · exact hnd.1 (he ▸ List.mem_map.mpr ⟨r, hr, rfl⟩)
    · exact hdisj r (List.mem_cons_of_mem a hr) hmem'

theorem ddp_sublist (l : List RawQuote) (seen : List String) :
    (drop_duplicates_player l seen).Sublist l := by
  induction l generalizing seen with
  | nil => simp [drop_duplicates_player]
  | cons a as ih =>
    rw [drop_duplicates_player]
    by_cases h : a.player ∈ seen
    · rw [if_pos h]
      exact (ih seen).trans (List.sublist_cons_self a as)
    · rw [if_neg h]
      exact (ih _).cons₂ a

theorem dedupe_best_sorted (l : List RawQuote) :
    List.Sorted impliedLE (dedupe_best l) :=
  (List.sorted_insertionSort impliedLE l).sublist (ddp_sublist _ _)

theorem dedupe_best_keys_nodup (l : List RawQuote) :
    ((dedupe_best l).map (·.player)).Nodup :=
  ddp_keys_nodup _ _

theorem dedupe_best_mem (l : List RawQuote) :
    ∀ r ∈ dedupe_best l, r ∈ l := fun r hr =>
  (List.perm_insertionSort impliedLE l).mem_iff.mp
    (ddp_subset _ _ r hr)

theorem dedupe_best_min (l : List RawQuote) :
    ∀ r ∈ dedupe_best l, ∀ s ∈ l, s.player = r.player →
      r.implied_prob ≤ s.implied_prob := by
  intro r hr s hsmem hps
  exact ddp_sorted_min _ [] (List.sorted_insertionSort impliedLE l) r hr s
    ((List.perm_insertionSort impliedLE l).mem_iff.mpr hsmem) hps

theorem dedupe_best_perm (l : List RawQuote)
    (h : (l.map (·.player)).Nodup) : (dedupe_best l).Perm l := by
  have hperm := List.perm_insertionSort impliedLE l
  have hnd : ((List.insertionSort impliedLE l).map (·.player)).Nodup :=
    ((hperm.map (·.player)).nodup_iff).mpr h
  rw [dedupe_best, ddp_eq_self _ [] hnd (by simp)]
  exact hperm

theorem dedupe_best_idem (l : List RawQuote) :
    dedupe_best (dedupe_best l) = dedupe_best l := by
  conv_lhs => rw [dedupe_best]
  rw [(dedupe_best_sorted l).insertionSort_eq]
  exact ddp_eq_self _ [] (dedupe_best_keys_nodup l) (by simp)

/-- Claim C6: `normalize_book_odds` and `normalize_sack_odds` return at
most one row per player; the row kept for a player has the lowest implied
probability among that player's input rows; and on an input that already
has one row per player the same rows come back (the normalization is
idempotent, `dedupe_best` being the shared sort-and-deduplicate core the
two functions project from). -/
theorem C6_normalize_dedupe (rows : List RawQuote) :
    ((normalize_book_odds rows).map (·.player)).Nodup ∧
    (∀ q ∈ normalize_book_odds rows, ∃ s, s ∈ rows ∧
      q = { player := s.player, odds := s.odds, implied_prob := s.implied_prob } ∧
      ∀ t ∈ rows, t.player = s.player → s.implied_prob ≤ t.implied_prob) ∧
    ((rows.map (·.player)).Nodup →
      (normalize_book_odds rows).Perm (rows.map (fun s =>
        { player := s.player, odds := s.odds, implied_prob := s.implied_prob }))) ∧
    dedupe_best (dedupe_best rows) = dedupe_best rows ∧
    ((normalize_sack_odds rows).map (·.player)).Nodup ∧
    (∀ q ∈ normalize_sack_odds rows, ∃ s, s ∈ rows ∧
      q = { player := s.player, line := s.line, odds := s.odds,
            implied_prob := s.implied_prob } ∧
      ∀ t ∈ rows, t.player = s.player → s.implied_prob ≤ t.implied_prob) ∧
    ((rows.map (·.player)).Nodup →
      (normalize_sack_odds rows).Perm (rows.map (fun s =>
        { player := s.player, line := s.line, odds := s.odds,
          implied_prob := s.implied_prob }))) := by
  refine ⟨?_, ?_, ?_, dedupe_best_idem rows, ?_, ?_, ?_⟩
  · simpa [normalize_book_odds, List.map_map, Function.comp]
      using dedupe_best_keys_nodup rows
  · intro q hq
    obtain ⟨s, hs, rfl⟩ := List.mem_map.mp hq
    exact ⟨s, dedupe_best_mem rows s hs, rfl, dedupe_best_min rows s hs⟩
  · intro h
    exact (dedupe_best_perm rows h).map _
  · simpa [normalize_sack_odds, List.map_map, Function.comp]
      using dedupe_best_keys_nodup rows
  · intro q hq
    obtain ⟨s, hs, rfl⟩ := List.mem_map.mp hq
    exact ⟨s, dedupe_best_mem rows s hs, rfl, dedupe_best_min rows s hs⟩
  · intro h
    exact (dedupe_best_perm rows h).map _

/-- Witness for C6: a two-row table with distinct players normalizes to a
permutation of itself. -/
theorem C6_witness :
    (normalize_book_odds
      [{ player := "A", book := "b1", odds := 150, implied_prob := 2, line := none },
       { player := "B", book := "b2", odds := -200, implied_prob := 1, line := none }]).Perm
      [{ player := "A", odds := 150, implied_prob := 2 },
       { player := "B", odds := -200, implied_prob := 1 }] :=
  (C6_normalize_dedupe
      [{ player := "A", book := "b1", odds := 150, implied_prob := 2, line := none },
       { player := "B", book := "b2", odds := -200, implied_prob := 1, line := none }]).2.2.1
    (by decide)

/-- Claim C10: `apply_filters` is claimed to be a pure row filter.  The
position and usage paths are (second conjunct): with the injury branch
inactive the output keeps the column set and its rows are a sublist of
the input rows.  But whenever the injury branch actually runs (injury
exclusion on, season and week given, non-empty injury table), the pandas
merge of filters.py line 111 suffixes the shared `player` column to
`player_x` / `player_y`, and line 115, which selects `model_df.columns`
from the merged frame, raises `KeyError` instead of returning a filtered
table (first conjunct, a concrete run). -/
theorem C10_apply_filters_keyerror :
    apply_filters
        { cols := ["player", "position", "recent_opps"],
          rows := [fun c => if c = "player" then Cell.str "A Bee"
                   else if c = "position" then Cell.str "RB" else Cell.num 5] }
        [] 0 true (some 2025) (some 6)
        [{ player := "A. Bee", injury_status := "questionable" }] =
      .error "KeyError: model_df.columns not all present in merged frame" ∧
    (∀ (df : Frame) (positions : List String) (mro : ℚ) (season week : Option ℤ)
        (inj : List InjRow) (out : Frame),
      apply_filters df positions mro false season week inj = .ok out →
      out.cols = df.cols ∧ out.rows.Sublist df.rows) := by
  constructor
  · rfl
  · intro df positions mro season week inj out h
    simp only [apply_filters, Bool.false_eq_true, false_and, if_false, Except.ok.injEq] at h
    subst h
    refine ⟨rfl, ?_⟩
    have h1 : ∀ rows1 : List (String → Cell),
        (if positions ≠ [] ∧ df.cols.contains "position" then
          (if ((positions.map String.trim).filter (fun p => p ≠ "")).map String.toUpper ≠ [] then
            df.rows.filter (fun r =>
              (((positions.map String.trim).filter (fun p => p ≠ "")).map String.toUpper).contains
                (astype_str (r "position")).toUpper)
          else df.rows)
        else df.rows).Sublist df.rows := by
      intro _
      split_ifs <;> first | exact List.filter_sublist _ | exact List.Sublist.refl _
    refine List.Sublist.trans ?_ (h1 df.rows)
    split_ifs <;> first | exact List.filter_sublist _ | exact List.Sublist.refl _

/-- Witness for C10: the injury-off path on a concrete frame keeps the
column set and returns a sublist of the rows. -/
theorem C10_witness :
    (Frame.mk ["player", "recent_opps"] []).cols =
      (Frame.mk ["player", "recent_opps"] [fun _ => Cell.num 5]).cols ∧
    (Frame.mk ["player", "recent_opps"] ([] : List (String → Cell))).rows.Sublist
      (Frame.mk ["player", "recent_opps"] [fun _ => Cell.num 5]).rows :=
  (C10_apply_filters_keyerror).2
    (Frame.mk ["player", "recent_opps"] [fun _ => Cell.num 5]) [] 10 none none []
    (Frame.mk ["player", "recent_opps"] []) rfl

end Gamblebot
